import Mathlib

/-!
Verification development for the OpenLogReplicator-style redo-log reader and
replicator core (src/src/reader/Reader.cpp, src/src/replicator/Replicator.cpp).
The definitions below are shallow embeddings of the C++ source: machine
integers become Nat with explicit reductions modulo powers of two where the
source can overflow, byte buffers become functions from offsets to byte
values, and the stateful producer/consumer code becomes explicit step
relations on record states.
-/

namespace OLR

/-- Redo result codes, from Reader.h lines 22-37. -/
inductive REDO_CODE where
  | OK
  | OVERWRITTEN
  | FINISHED
  | STOPPED
  | SHUTDOWN
  | EMPTY
  | ERROR_READ
  | ERROR_WRITE
  | ERROR_SEQUENCE
  | ERROR_CRC
  | ERROR_BLOCK
  | ERROR_BAD_DATA
  | ERROR
deriving DecidableEq, Repr

/-- Reader states, from Reader.h lines 52-57. -/
inductive STATUS where
  | SLEEPING
  | CHECK
  | UPDATE
  | READ
deriving DecidableEq, Repr

/-- System change numbers; Scn::none() is the absent sentinel, modelled as
Option.none. -/
abbrev Scn := Option Nat

/-- Modelled from the spec: Ctx::read16 (Ctx.h is not part of the source
subset); assembles a 16-bit field from two bytes, little-endian in the common
case and big-endian when the header byte-order signature says so (spec 4.2.1
and 6). Byte values are normalised modulo 256. -/
def read16 (bigE : Bool) (b : Nat → Nat) (off : Nat) : Nat :=
  if bigE then (b off % 256) * 256 + b (off + 1) % 256
  else b off % 256 + (b (off + 1) % 256) * 256

/-- Modelled from the spec: Ctx::read32, a 32-bit field from four bytes. -/
def read32 (bigE : Bool) (b : Nat → Nat) (off : Nat) : Nat :=
  if bigE then
    ((b off % 256) * 256 + b (off + 1) % 256) * 65536 +
      ((b (off + 2) % 256) * 256 + b (off + 3) % 256)
  else
    (b off % 256 + (b (off + 1) % 256) * 256) +
      ((b (off + 2) % 256) + (b (off + 3) % 256) * 256) * 65536

/-- Raw little-endian 64-bit word of the buffer, as obtained by the
reinterpret_cast in Reader::calcChSum on a little-endian host. -/
def read64LE (b : Nat → Nat) (off : Nat) : Nat :=
  b off % 256 +
    (b (off + 1) % 256) * 2 ^ 8 +
    (b (off + 2) % 256) * 2 ^ 16 +
    (b (off + 3) % 256) * 2 ^ 24 +
    (b (off + 4) % 256) * 2 ^ 32 +
    (b (off + 5) % 256) * 2 ^ 40 +
    (b (off + 6) % 256) * 2 ^ 48 +
    (b (off + 7) % 256) * 2 ^ 56

/-- XOR of the first n 8-byte words of the buffer (the accumulation loop of
Reader::calcChSum, Reader.cpp lines 1014-1015). -/
def xorWords (b : Nat → Nat) : Nat → Nat
  | 0 => 0
  | n + 1 => xorWords b n ^^^ read64LE b (8 * n)

/-- Reader::calcChSum, Reader.cpp lines 1010-1021: XOR the block as 8-byte
words, fold 64 to 32 to 16 bits, XOR in the stored checksum read at offset 14,
and keep the low 16 bits. -/
def calcChSum (bigE : Bool) (b : Nat → Nat) (size : Nat) : Nat :=
  let oldChSum := read16 bigE b 14
  let sum0 := xorWords b (size / 8)
  let sum1 := sum0 ^^^ (sum0 >>> 32)
  let sum2 := sum1 ^^^ (sum1 >>> 16)
  (sum2 ^^^ oldChSum) &&& 0xFFFF

/-- The 16-bit fold of the whole block, before the stored checksum is XOR-ed
in: the low 16 bits of the 64-to-32-to-16 fold of the word XOR. The code
accepts a block exactly when this quantity is zero. -/
def blockFold16 (b : Nat → Nat) (size : Nat) : Nat :=
  let sum0 := xorWords b (size / 8)
  let sum1 := sum0 ^^^ (sum0 >>> 32)
  let sum2 := sum1 ^^^ (sum1 >>> 16)
  sum2 &&& 0xFFFF

/-- Reader fields consulted by Reader::checkBlockHeader. The sequence field
uses the convention of Seq: value 0 is Seq::zero(), the unknown sentinel. -/
structure RdState where
  blockSize : Nat
  group : Int
  sequence : Nat
  status : STATUS
  disableBlockSum : Bool
deriving DecidableEq, Repr

/-- Reader::checkBlockHeader, Reader.cpp lines 128-206. Returns the result
code together with the (possibly adopted) reader sequence, since the source
mutates the member on the adoption branch. The buffer argument maps byte
offsets to byte values. -/
def checkBlockHeader (bigE : Bool) (st : RdState) (buffer : Nat → Nat)
    (blockNumber : Nat) : REDO_CODE × Nat :=
  if buffer 0 % 256 = 0 ∧ buffer 1 % 256 = 0 then
    (.EMPTY, st.sequence)
  else if (st.blockSize = 512 ∧ buffer 1 % 256 ≠ 0x22) ∨
          (st.blockSize = 1024 ∧ buffer 1 % 256 ≠ 0x22) ∨
          (st.blockSize = 4096 ∧ buffer 1 % 256 ≠ 0x82) then
    (.ERROR_BAD_DATA, st.sequence)
  else
    let blockNumberHeader := read32 bigE buffer 4
    let sequenceHeader := read32 bigE buffer 8
    let tail : Nat → REDO_CODE × Nat := fun seqOut =>
      if blockNumberHeader ≠ blockNumber then
        (.ERROR_BLOCK, seqOut)
      else if ¬st.disableBlockSum ∧
              read16 bigE buffer 14 ≠ calcChSum bigE buffer st.blockSize then
        (.ERROR_CRC, seqOut)
      else
        (.OK, seqOut)
    if st.sequence = 0 ∨ st.status = .UPDATE then
      tail sequenceHeader
    else if st.group = 0 then
      if st.sequence ≠ sequenceHeader then (.ERROR_SEQUENCE, st.sequence)
      else tail st.sequence
    else if st.sequence > sequenceHeader then (.EMPTY, st.sequence)
    else if st.sequence < sequenceHeader then (.OVERWRITTEN, st.sequence)
    else tail st.sequence

/-- Reader::readSize, Reader.cpp lines 208-216. prevRead is a C uint, so the
doubling wraps modulo 2^32; chunkSize stands for Ctx::MEMORY_CHUNK_SIZE. -/
def readSize (blockSize chunkSize prevRead : Nat) : Nat :=
  if prevRead < blockSize then blockSize
  else min (2 * prevRead % 2 ^ 32) chunkSize

/-- Scan loop of Reader::read1, Reader.cpp lines 579-593: walk the per-block
check results, counting the prefix of OK blocks; currentRet ends as OK when
every block passed, otherwise as the first failing result. -/
def scanBlocks : List REDO_CODE → Nat × REDO_CODE
  | [] => (0, .OK)
  | r :: rest =>
    if r = .OK then
      let t := scanBlocks rest
      (t.1 + 1, t.2)
    else (0, r)

/-- Inputs of one Reader::read1 pass, with the I/O outcomes abstracted: the
size computation collapsed to whether toRead ended up zero, whether the pread
failed, whether the optional redo-copy tee failed, the checkBlockHeader
results of the blocks that were read, and the result reloadHeader would
return if called. -/
structure Read1Input where
  group : Int
  redoVerifyDelayUs : Nat
  nextScnHeader : Scn
  toReadZero : Bool
  readFailed : Bool
  fileCopyOpen : Bool
  copyWriteFailed : Bool
  scanResults : List REDO_CODE
  reloadRet : REDO_CODE
deriving DecidableEq, Repr

/-- Post-scan decision chain of Reader::read1: the archived no-good-blocks
termination (Reader.cpp lines 597-608), the CRC-to-EMPTY demotion (lines
612-613), the error return (lines 616-619), the header reload on an
all-empty scan (lines 623-630), and the archived sequence-error termination
(lines 673-684); none means read1 returns true and the READ loop
continues. -/
def read1Decide (group : Int) (delay : Nat) (nsh : Scn) (goodBlocks : Nat)
    (currentRet0 reloadRet : REDO_CODE) : Option REDO_CODE :=
  if goodBlocks = 0 ∧ group = 0 then
    some (if nsh ≠ none then .FINISHED else .STOPPED)
  else
    let currentRet :=
      if currentRet0 = .ERROR_CRC ∧ delay > 0 ∧ group ≠ 0 then .EMPTY
      else currentRet0
    if goodBlocks = 0 ∧ currentRet ≠ .OK ∧ currentRet ≠ .EMPTY then
      some currentRet
    else if goodBlocks = 0 ∧ currentRet = .EMPTY then
      if reloadRet ≠ .OK then some reloadRet else none
    else if currentRet = .ERROR_SEQUENCE ∧ group = 0 then
      some (if nsh ≠ none then .FINISHED else .STOPPED)
    else none

/-- Reader::read1, Reader.cpp lines 507-687, reduced to the value it stores
into ret when it returns false. The branch order follows the source:
zero-size read (line 524), failed pread (line 545), failed tee write (lines
555-566, only reached when the verify delay is off or the group is 0), then
the post-scan decision chain on the block-check results. -/
def read1Ret (i : Read1Input) : Option REDO_CODE :=
  if i.toReadZero then some .ERROR
  else if i.readFailed then some .ERROR_READ
  else if i.fileCopyOpen ∧ (i.redoVerifyDelayUs = 0 ∨ i.group = 0) ∧
          i.copyWriteFailed then
    some .ERROR_WRITE
  else
    read1Decide i.group i.redoVerifyDelayUs i.nextScnHeader
      (scanBlocks i.scanResults).1 (scanBlocks i.scanResults).2 i.reloadRet

/-- Retry loop of Reader::reloadHeader on checksum failures, Reader.cpp lines
450-468: the k-th call of checkBlockHeader on block 1 yields results k; after
BAD_CDC_MAX_CNT consecutive ERROR_CRC results the loop gives up with
ERROR_BAD_DATA, otherwise it stops at the first non-CRC result. -/
def crcRetryAux (results : Nat → REDO_CODE) (idx : Nat) : Nat → REDO_CODE
  | 0 => .ERROR_BAD_DATA
  | fuel + 1 =>
    if results idx = .ERROR_CRC then crcRetryAux results (idx + 1) fuel
    else results idx

/-- BAD_CDC_MAX_CNT, Reader.h line 60. -/
def BAD_CDC_MAX_CNT : Nat := 20

/-- The block-1 check-and-retry stage of Reader::reloadHeader. -/
def reloadHeaderCrcRetry (results : Nat → REDO_CODE) : REDO_CODE :=
  crcRetryAux results 0 BAD_CDC_MAX_CNT

/-- State read by one iteration of the READ loop of Reader::mainLoop,
Reader.cpp lines 893-997. numBlocksHeader uses none for the ZERO_BLK unknown
sentinel. -/
structure LoopSt where
  bufferStart : Nat
  bufferEnd : Nat
  bufferScan : Nat
  fileSize : Nat
  blockSize : Nat
  bufferSizeMax : Nat
  numBlocksHeader : Option Nat
  nextScnHeader : Scn
  nextScn : Scn
deriving DecidableEq, Repr

/-- Outcome of one READ-loop iteration: terminate the file with a final ret
(and the resulting nextScn), block on the ring-full condition variable, or
keep polling. -/
inductive LoopAction where
  | terminate (ret : REDO_CODE) (nextScn : Scn)
  | waitFull
  | continue
deriving DecidableEq, Repr

/-- One iteration of the READ loop of Reader::mainLoop, Reader.cpp lines
893-997, with the read passes abstracted to their failure outcome (some r
when read2/read1 returned false after storing r into ret). The branch order
follows the source: end-of-file check (lines 901-915), ring-full wait (lines
918-937), the verify pass (lines 942-944), the fill pass (lines 953-956), and
the declared-length check (lines 960-970). -/
def mainLoopIter (st : LoopSt) (read2Outcome read1Outcome : Option REDO_CODE)
    (read1Attempted : Bool) : LoopAction :=
  if st.bufferEnd = st.fileSize then
    match st.nextScnHeader with
    | some v => .terminate .FINISHED (some v)
    | none => .terminate .STOPPED st.nextScn
  else if st.bufferStart + st.bufferSizeMax = st.bufferEnd then .waitFull
  else if st.bufferEnd < st.bufferScan then
    match read2Outcome with
    | some r => .terminate r st.nextScn
    | none => mainLoopIterTail st read1Outcome read1Attempted
  else mainLoopIterTail st read1Outcome read1Attempted
where
  /-- Fill pass and declared-length check of the same iteration. -/
  mainLoopIterTail (st : LoopSt) (read1Outcome : Option REDO_CODE)
      (read1Attempted : Bool) : LoopAction :=
    if st.bufferScan < st.fileSize ∧ read1Attempted then
      match read1Outcome with
      | some r => .terminate r st.nextScn
      | none => mainLoopNumBlocksCheck st
    else mainLoopNumBlocksCheck st
  /-- Declared-length check, Reader.cpp lines 960-970. -/
  mainLoopNumBlocksCheck (st : LoopSt) : LoopAction :=
    match st.numBlocksHeader with
    | some nb =>
      if st.bufferEnd = nb * st.blockSize then
        match st.nextScnHeader with
        | some v => .terminate .FINISHED (some v)
        | none => .terminate .STOPPED st.nextScn
      else .continue
    | none => .continue

/-- Reader fields touched by Reader::checkRedoLog. -/
structure CheckSt where
  status : STATUS
  ret : REDO_CODE
  sequence : Nat
  firstScn : Scn
  nextScn : Scn
deriving DecidableEq, Repr

/-- The mutex-protected first phase of Reader::checkRedoLog, Reader.cpp lines
1402-1412: request the CHECK transition and reset the per-file identity. -/
def checkRedoLogRequest (st : CheckSt) : CheckSt :=
  { st with status := .CHECK, sequence := 0, firstScn := none, nextScn := none }

/-- The CHECK branch of Reader::mainLoop, Reader.cpp lines 824-843: the
reader thread reopens the file and publishes the result, going back to
SLEEPING. -/
def readerHandleCheck (openRet : REDO_CODE) (st : CheckSt) : CheckSt :=
  { st with ret := openRet, status := .SLEEPING }

/-- Reader::checkRedoLog, Reader.cpp lines 1398-1431, as the joint effect of
the requesting thread and the reader thread. When softShutdown is set during
the wait the loop breaks with the reader still in CHECK and the stale ret is
compared; otherwise the reader completes the CHECK transition first. -/
def checkRedoLog (softShutdown : Bool) (openRet : REDO_CODE) (st : CheckSt) :
    Bool × CheckSt :=
  let st1 := checkRedoLogRequest st
  if softShutdown then (st1.ret = .OK, st1)
  else
    let st2 := readerHandleCheck openRet st1
    (st2.ret = .OK, st2)

/-- Ring cursors of one Reader (Reader.h lines 87, 94-95) together with the
per-file constants they are bounded by. -/
structure RingSt where
  bufferStart : Nat
  bufferEnd : Nat
  bufferScan : Nat
  fileSize : Nat
  blockSize : Nat
deriving DecidableEq, Repr

/-- Events that modify the ring cursors. confirm and checkFin are issued by
the consumer (parser) thread; the remaining events are issued by the reader
thread itself. -/
inductive RingEvent where
  | confirm (o : Nat)
  | checkFin (o : Nat)
  | read1Publish (g : Nat)
  | read1Scan (g : Nat)
  | read2Publish (n : Nat)
  | updateReset
  | readEnter
deriving DecidableEq, Repr

/-- Consumer-side events: Reader::confirmReadData and Reader::checkFinished
are the two entry points called by the parser. -/
def RingEvent.isConsumer : RingEvent → Bool
  | .confirm _ => true
  | .checkFin _ => true
  | _ => false

/-- Cursor-moving steps of the Reader, one constructor per mutation site of
the source. The guards record what the surrounding code guarantees at each
site:
confirm is Reader::confirmReadData (Reader.cpp lines 1499-1509); its offset
bound is the consumer contract of spec 4.5 (the parser confirms a prefix of
the published window), modelled from the spec since the parser is outside the
source subset.
checkFin is the clamp in Reader::checkFinished (lines 1514-1516), which only
ever raises bufferStart.
read1Publish is the no-verify-delay publication of Reader::read1 (lines
655-668); there bufferScan = bufferEnd on entry and the published bytes were
clipped against fileSize (lines 512-513) so bufferEnd stays within the file.
read1Scan is the verify-delay variant (line 646) advancing bufferScan only.
read2Publish is the publication of Reader::read2 (lines 779-785), which
re-reads bytes in the held range so bufferEnd never passes bufferScan.
updateReset is the UPDATE branch of Reader::mainLoop (lines 859-862) after a
successful header reload (a file of at least two blocks); it also stands for
the bufferScan = bufferEnd assignment made on READ entry (line 888) before
the scan cursor is next consulted.
readEnter is that READ-entry assignment alone (line 888). -/
inductive RingStep : RingEvent → RingSt → RingSt → Prop where
  | confirm (o : Nat) (s : RingSt)
      (hlo : s.bufferStart ≤ o) (hhi : o ≤ s.bufferEnd) :
      RingStep (.confirm o) s { s with bufferStart := o }
  | checkFin (o : Nat) (s : RingSt) (hhi : o ≤ s.bufferEnd) :
      RingStep (.checkFin o) s { s with bufferStart := max s.bufferStart o }
  | read1Publish (g : Nat) (s : RingSt)
      (hscan : s.bufferScan = s.bufferEnd)
      (hsize : s.bufferEnd + g * s.blockSize ≤ s.fileSize) :
      RingStep (.read1Publish g) s
        { s with bufferEnd := s.bufferEnd + g * s.blockSize,
                 bufferScan := s.bufferEnd + g * s.blockSize }
  | read1Scan (g : Nat) (s : RingSt)
      (hsize : s.bufferScan + g * s.blockSize ≤ s.fileSize) :
      RingStep (.read1Scan g) s
        { s with bufferScan := s.bufferScan + g * s.blockSize }
  | read2Publish (n : Nat) (s : RingSt)
      (hheld : s.bufferEnd + n ≤ s.bufferScan) :
      RingStep (.read2Publish n) s { s with bufferEnd := s.bufferEnd + n }
  | updateReset (s : RingSt) (hfile : 2 * s.blockSize ≤ s.fileSize) :
      RingStep .updateReset s
        { s with bufferStart := 2 * s.blockSize,
                 bufferEnd := 2 * s.blockSize,
                 bufferScan := 2 * s.blockSize }
  | readEnter (s : RingSt) :
      RingStep .readEnter s { s with bufferScan := s.bufferEnd }

/-- The ring window invariant of spec 3 and 8.2: the confirmed start never
passes the published end, the published end never passes the scan cursor, and
the scan cursor stays within the file. -/
def RingInv (s : RingSt) : Prop :=
  s.bufferStart ≤ s.bufferEnd ∧ s.bufferEnd ≤ s.bufferScan ∧
    s.bufferScan ≤ s.fileSize

/-- Replicator-level events that assign metadata.sequence. -/
inductive SeqEvent where
  | finishedArch
  | finishedOnline
  | resetlogsDetected
  | adoptQueueHead (q : Nat)
  | positionReader (q : Nat)
deriving DecidableEq, Repr

/-- The FINISHED completions, after which the sequence is bumped. -/
def SeqEvent.isFinished : SeqEvent → Bool
  | .finishedArch => true
  | .finishedOnline => true
  | _ => false

/-- Assignments of metadata.sequence performed by the Replicator, one
constructor per assignment site. The sequence is a 32-bit Seq, so bumps wrap
modulo 2^32.
finishedArch is the increment after an archived file returns FINISHED,
Replicator.cpp line 935.
finishedOnline is Metadata::setNextSequence after an online file returns
FINISHED, Replicator.cpp line 1031; Metadata is outside the source subset, so
the bump-by-one is modelled from the spec (invariant 5: the sequence is
bumped exactly when a file finishes with ret = FINISHED).
resetlogsDetected is the reset in Replicator::updateResetlogs on a detected
new incarnation branch, Replicator.cpp line 727.
adoptQueueHead is the adoption of the first queued file when the sequence is
still Seq::zero(), Replicator.cpp lines 842-851 (and the equivalent
initialisation in archGetLogList, line 683).
positionReader is the startup positioning, Replicator.cpp lines 133-138. -/
inductive SeqStep : SeqEvent → Nat → Nat → Prop where
  | finishedArch (s : Nat) : SeqStep .finishedArch s ((s + 1) % 2 ^ 32)
  | finishedOnline (s : Nat) : SeqStep .finishedOnline s ((s + 1) % 2 ^ 32)
  | resetlogsDetected (s : Nat) : SeqStep .resetlogsDetected s 0
  | adoptQueueHead (q : Nat) : SeqStep (.adoptQueueHead q) 0 q
  | positionReader (q s : Nat) : SeqStep (.positionReader q) s q

/-- One database incarnation, with the fields Replicator::updateResetlogs
consults (common/DbIncarnation.h is outside the source subset; the fields are
those of spec 3: incarnation number, resetlogs id, resetlogs SCN, prior
incarnation number). -/
structure DbIncarnation where
  incarnation : Nat
  resetlogs : Nat
  resetlogsScn : Scn
  priorIncarnation : Nat
deriving DecidableEq, Repr

/-- Metadata fields consulted and updated by Replicator::updateResetlogs.
current is the persistent dbIncarnationCurrent pointer, none when null. -/
structure MetaState where
  dbIncarnations : List DbIncarnation
  current : Option DbIncarnation
  resetlogs : Nat
  sequence : Nat
  fileOffset : Nat
  nextScn : Scn
deriving DecidableEq, Repr

/-- Outcome of Replicator::updateResetlogs: a normal return with the updated
metadata, the fatal RuntimeException 10045 with the resetlogs-not-found
message, or the dereference of a null dbIncarnationCurrent inside the
detection loop (undefined behaviour in the source). -/
inductive URResult where
  | ok (m : MetaState)
  | fatalResetlogsNotFound
  | nullDeref
deriving DecidableEq, Repr

/-- New-branch detection loop of Replicator::updateResetlogs, Replicator.cpp
lines 718-733. The condition short-circuits: dbIncarnationCurrent is only
dereferenced for an incarnation whose resetlogsScn equals metadata.nextScn,
and when it is null at that point the source crashes. -/
def detectNewBranch (cur : Option DbIncarnation) (resetlogs : Nat)
    (nextScn : Scn) : List DbIncarnation → URResult ⊕ Option DbIncarnation
  | [] => Sum.inr none
  | oi :: rest =>
    if oi.resetlogsScn = nextScn then
      match cur with
      | none => Sum.inl .nullDeref
      | some c =>
        if c.resetlogs = resetlogs ∧ oi.priorIncarnation = c.incarnation then
          Sum.inr (some oi)
        else detectNewBranch cur resetlogs nextScn rest
    else detectNewBranch cur resetlogs nextScn rest

/-- Replicator::updateResetlogs, Replicator.cpp lines 703-748: locate the
current incarnation by resetlogs id (keeping the previous pointer when no
entry matches), run the new-branch detection, and otherwise fall through to
the empty-list quiet return or the fatal resetlogs-not-found error. -/
def updateResetlogs (m : MetaState) : URResult :=
  let cur :=
    match m.dbIncarnations.find? (fun oi => oi.resetlogs = m.resetlogs) with
    | some oi => some oi
    | none => m.current
  match detectNewBranch cur m.resetlogs m.nextScn m.dbIncarnations with
  | Sum.inl r => r
  | Sum.inr (some oi) =>
    .ok { m with resetlogs := oi.resetlogs, sequence := 0, fileOffset := 0,
                 current := cur }
  | Sum.inr none =>
    if m.dbIncarnations.isEmpty then .ok { m with current := cur }
    else
      match cur with
      | none => .fatalResetlogsNotFound
      | some _ => .ok { m with current := cur }

/-- Decimal digit test on a character code, the comparisons of
Replicator.cpp line 428. -/
def isDigC (c : Nat) : Bool := decide (48 ≤ c ∧ c ≤ 57)

/-- Hash character test, the comparisons of Replicator.cpp line 439: a
decimal digit or a lowercase letter. -/
def isHashC (c : Nat) : Bool :=
  decide ((48 ≤ c ∧ c ≤ 57) ∨ (97 ≤ c ∧ c ≤ 122))

/-- Numeric wildcard letters s S t T r a d, Replicator.cpp lines 422-425
(character codes 115, 83, 116, 84, 114, 97, 100). -/
def numericW (w : Nat) : Bool :=
  decide (w = 115 ∨ w = 83 ∨ w = 116 ∨ w = 84 ∨ w = 114 ∨ w = 97 ∨ w = 100)

/-- Sequence wildcard letters s and S, Replicator.cpp line 434. -/
def seqW (w : Nat) : Bool := decide (w = 115 ∨ w = 83)

/-- Maximal digit-run consumption of Replicator.cpp lines 427-432: consume
leading digits, accumulating the value in a C uint32_t (hence modulo 2^32);
returns the number of digits consumed, the accumulated value and the rest of
the filename. -/
def takeNumber : List Nat → Nat → Nat × Nat × List Nat
  | [], acc => (0, acc, [])
  | c :: rest, acc =>
    if isDigC c then
      let t := takeNumber rest ((acc * 10 + (c - 48)) % 2 ^ 32)
      (t.1 + 1, t.2.1, t.2.2)
    else (0, acc, c :: rest)

/-- Maximal hash-run consumption of Replicator.cpp lines 438-442: consume
characters in [0-9a-z], returning the count and the rest. -/
def takeHash : List Nat → Nat × List Nat
  | [] => (0, [])
  | c :: rest =>
    if isHashC c then
      let t := takeHash rest
      (t.1 + 1, t.2)
    else (0, c :: rest)

/-- Matching walk of Replicator::getSequenceFromFileName, Replicator.cpp
lines 408-470, over character codes: the format and filename advance in
lockstep, wildcards consume maximal runs (failing when the run is empty or
the wildcard letter is unknown or the format ends right after a percent
sign), literals must match exactly, and both strings must be exhausted
together; every failure yields Seq::zero() = 0. The accumulator holds the
sequence value captured so far (Seq sequence initialised to 0 at line
409). -/
def walk : List Nat → List Nat → Nat → Nat
  | [], [], a => a
  | [], _ :: _, _ => 0
  | _ :: _, [], _ => 0
  | f :: fmtRest, c :: fileRest, a =>
    if f = 37 then
      match fmtRest with
      | [] => 0
      | w :: fmtRest2 =>
        if numericW w then
          let t := takeNumber (c :: fileRest) 0
          if t.1 = 0 then 0
          else walk fmtRest2 t.2.2 (if seqW w then t.2.1 else a)
        else if w = 104 then
          let t := takeHash (c :: fileRest)
          if t.1 = 0 then 0 else walk fmtRest2 t.2 a
        else 0
    else if c = f then walk fmtRest fileRest a else 0

/-- Replicator::getSequenceFromFileName applied to a format and filename. -/
def getSequenceFromFileName (fmt file : List Nat) : Nat := walk fmt file 0

/-- Little-endian digit-character extraction with fuel, used to build
decimal renderings: digits of n, least significant first, as character
codes. -/
def toDigitsRev : Nat → Nat → List Nat
  | 0, _ => []
  | _ + 1, 0 => []
  | fuel + 1, n + 1 => ((n + 1) % 10 + 48) :: toDigitsRev fuel ((n + 1) / 10)

/-- Decimal rendering of a natural number as character codes, most
significant digit first. -/
def decChars (n : Nat) : List Nat :=
  if n = 0 then [48] else (toDigitsRev n n).reverse

/-- Zero-filled decimal rendering of width w. -/
def zeroFill (w n : Nat) : List Nat :=
  List.replicate (w - (decChars n).length) 48 ++ decChars n

/-- Parameters of one archived-log filename: the values substituted for the
wildcards of log_archive_format (spec 4.3 and 6), with the zero-fill widths
of the upper-case variants and the hash rendered as character codes. -/
structure ArchParams where
  seq : Nat
  seqWidth : Nat
  thread : Nat
  threadWidth : Nat
  resetlogsId : Nat
  activationId : Nat
  dbId : Nat
  hash : List Nat
deriving DecidableEq, Repr

/-- The filename text substituted for one wildcard letter: decimal
renderings for the numeric wildcards (zero-filled for the upper-case
variants), the hash text for the hash wildcard, nothing for an unknown
letter. -/
def wildcardChunk (p : ArchParams) (w : Nat) : Option (List Nat) :=
  if w = 115 then some (decChars p.seq)
  else if w = 83 then some (zeroFill p.seqWidth p.seq)
  else if w = 116 then some (decChars p.thread)
  else if w = 84 then some (zeroFill p.threadWidth p.thread)
  else if w = 114 then some (decChars p.resetlogsId)
  else if w = 97 then some (decChars p.activationId)
  else if w = 100 then some (decChars p.dbId)
  else if w = 104 then some p.hash
  else none

/-- Modelled from the spec: expansion of the log_archive_format template
(spec 4.3 and 6). The repository only parses filenames; this is the
spec-side generator whose output the matcher is claimed to invert. A percent
sign followed by an unknown letter (or ending the template) has no expansion.
-/
def expandFormat (p : ArchParams) : List Nat → Option (List Nat)
  | [] => some []
  | c :: rest =>
    if c = 37 then
      match rest with
      | [] => none
      | w :: rest2 =>
        match wildcardChunk p w, expandFormat p rest2 with
        | some cs, some t => some (cs ++ t)
        | _, _ => none
    else
      match expandFormat p rest with
      | some t => some (c :: t)
      | none => none

/-- The expansion of a format starts with a non-digit (or is empty): true
when the format is empty or begins with a literal that is neither a percent
sign nor a digit. -/
def breaksNumber : List Nat → Bool
  | [] => true
  | c :: _ => decide (c ≠ 37) && !isDigC c

/-- The expansion of a format starts with a non-hash character (or is
empty). -/
def breaksHash : List Nat → Bool
  | [] => true
  | c :: _ => decide (c ≠ 37) && !isHashC c

/-- Well-separated format: every percent wildcard is known, and each
wildcard is followed by a literal that cannot extend the run it consumes (or
ends the format), so the maximal-run matcher stops exactly at the wildcard
boundary. -/
def sepFormat : List Nat → Bool
  | [] => true
  | c :: rest =>
    if c = 37 then
      match rest with
      | [] => false
      | w :: rest2 =>
        (numericW w && breaksNumber rest2 && sepFormat rest2) ||
          (decide (w = 104) && breaksHash rest2 && sepFormat rest2)
    else sepFormat rest

/-- The format contains a sequence wildcard. -/
def hasSeqWildcard : List Nat → Bool
  | [] => false
  | c :: rest =>
    if c = 37 then
      match rest with
      | [] => false
      | w :: rest2 => seqW w || hasSeqWildcard rest2
    else hasSeqWildcard rest

/-- Well-formed hash value: non-empty and made of hash characters. -/
def hashWF (h : List Nat) : Bool := !h.isEmpty && h.all isHashC

/-- The filename text does not start with a digit. -/
def headNonDigit : List Nat → Bool
  | [] => true
  | c :: _ => !isDigC c

/-- The filename text does not start with a hash character. -/
def headNonHash : List Nat → Bool
  | [] => true
  | c :: _ => !isHashC c

/-- Digit-run accumulation with the C uint32_t wrap of Replicator.cpp line
429, as a fold over the consumed characters. -/
def foldDec (a : Nat) (cs : List Nat) : Nat :=
  cs.foldl (fun n c => (n * 10 + (c - 48)) % 2 ^ 32) a

/-- Digit-run accumulation without the 32-bit wrap. -/
def foldDecNW (a : Nat) (cs : List Nat) : Nat :=
  cs.foldl (fun n c => n * 10 + (c - 48)) a

/-- Modelled from the spec: the lockstep matching walk of spec 4.3 as a pure
match test, with the same branching as the extractor but no sequence
capture. -/
def formatMatches : List Nat → List Nat → Bool
  | [], [] => true
  | [], _ :: _ => false
  | _ :: _, [] => false
  | f :: fmtRest, c :: fileRest =>
    if f = 37 then
      match fmtRest with
      | [] => false
      | w :: fmtRest2 =>
        if numericW w then
          let t := takeNumber (c :: fileRest) 0
          if t.1 = 0 then false else formatMatches fmtRest2 t.2.2
        else if w = 104 then
          let t := takeHash (c :: fileRest)
          if t.1 = 0 then false else formatMatches fmtRest2 t.2
        else false
    else if c = f then formatMatches fmtRest fileRest else false

theorem crcRetryAux_ne_crc (results : Nat → REDO_CODE) :
    ∀ (fuel idx : Nat), crcRetryAux results idx fuel ≠ .ERROR_CRC := by
  intro fuel
  induction fuel with
  | zero => intro idx; simp [crcRetryAux]
  | succ n ih =>
    intro idx
    unfold crcRetryAux
    by_cases h : results idx = .ERROR_CRC
    · simp only [h, if_true]
      exact ih (idx + 1)
    · simp only [h, if_false]
      exact h

theorem reloadHeaderCrcRetry_ne_crc (results : Nat → REDO_CODE) :
    reloadHeaderCrcRetry results ≠ .ERROR_CRC :=
  crcRetryAux_ne_crc results BAD_CDC_MAX_CNT 0

/-- C4: in the READ loop, whenever bufferEnd equals fileSize the reader
terminates the file, with ret = FINISHED and nextScn = nextScnHeader when
nextScnHeader is not NONE, and with ret = STOPPED (after the unexpected
end-of-file warning) when nextScnHeader is NONE. -/
theorem C4_theorem (st : LoopSt) (r2 r1 : Option REDO_CODE) (att : Bool)
    (heof : st.bufferEnd = st.fileSize) :
    (∀ v, st.nextScnHeader = some v →
      mainLoopIter st r2 r1 att = .terminate .FINISHED (some v)) ∧
    (st.nextScnHeader = none →
      mainLoopIter st r2 r1 att = .terminate .STOPPED st.nextScn) := by
  constructor
  · intro v hv
    unfold mainLoopIter
    simp [heof, hv]
  · intro hv
    unfold mainLoopIter
    simp [heof, hv]

theorem C4_witness :
    (LoopSt.mk 0 4096 4096 4096 512 1048576 none (some 9) none).bufferEnd =
      (LoopSt.mk 0 4096 4096 4096 512 1048576 none (some 9) none).fileSize ∧
    mainLoopIter (LoopSt.mk 0 4096 4096 4096 512 1048576 none (some 9) none)
      none none false = .terminate .FINISHED (some 9) :=
  ⟨rfl, (C4_theorem (LoopSt.mk 0 4096 4096 4096 512 1048576 none (some 9) none)
    none none false rfl).1 9 rfl⟩

/-- C6 counterexample: at previous read size 511 with block size 512 the
code returns the block size 512, while the claimed formula
max(blockSize, min(2x, M)) gives 1022. -/
theorem C6_counterexample :
    readSize 512 1048576 511 = 512 ∧
    max 512 (min (2 * 511) 1048576) = 1022 ∧ (512 : Nat) ≠ 1022 := by
  decide

/-- C6 (amended): for previous read sizes that are zero or at least
blockSize (the fill pass only ever produces 0 or multiples of blockSize, and
the initial value blockSize), with the doubling not wrapping 32 bits, the
growth function satisfies readSize(x) = max(blockSize, min(2x, M)). -/
theorem C6_theorem (bs M x : Nat) (hbs : 0 < bs) (hM : bs ≤ M)
    (hx : x = 0 ∨ bs ≤ x) (hw : 2 * x < 2 ^ 32) :
    readSize bs M x = max bs (min (2 * x) M) := by
  unfold readSize
  rcases hx with rfl | hx
  · simp [hbs]
  · have hnot : ¬x < bs := by omega
    have hmin : bs ≤ min (2 * x) M := le_min (by omega) hM
    simp [hnot, Nat.mod_eq_of_lt hw]
    omega

theorem C6_witness :
    readSize 512 1048576 1024 = max 512 (min (2 * 1024) 1048576) :=
  C6_theorem 512 1048576 1024 (by decide) (by decide) (Or.inr (by decide))
    (by decide)

/-- C10 counterexample: when softShutdown is raised during the wait, the
call returns with the reader still in CHECK and compares the stale ret, so
with a stale ret = OK it returns true although the reader did not return to
SLEEPING; the claimed biconditional fails. -/
theorem C10_counterexample :
    (checkRedoLog true .ERROR_READ
        (CheckSt.mk .SLEEPING .OK 7 (some 1) (some 2))).1 = true ∧
    (checkRedoLog true .ERROR_READ
        (CheckSt.mk .SLEEPING .OK 7 (some 1) (some 2))).2.status ≠
      .SLEEPING := by
  decide

/-- C10 (amended): every call of checkRedoLog resets the per-file identity
before the CHECK transition is acted on (sequence to Seq::zero(), firstScn
and nextScn to NONE), so a subsequent checkBlockHeader adopts the on-disk
sequence; and in the absence of a shutdown request the call returns true
exactly when the reader has returned to SLEEPING with ret = OK. -/
theorem C10_theorem (openRet : REDO_CODE) (st : CheckSt) :
    (checkRedoLogRequest st).sequence = 0 ∧
    (checkRedoLogRequest st).firstScn = none ∧
    (checkRedoLogRequest st).nextScn = none ∧
    (checkRedoLogRequest st).status = .CHECK ∧
    (checkRedoLog false openRet st).2.sequence = 0 ∧
    ((checkRedoLog false openRet st).1 = true ↔
      ((checkRedoLog false openRet st).2.status = .SLEEPING ∧
        (checkRedoLog false openRet st).2.ret = .OK)) ∧
    (∀ (bigE : Bool) (rs : RdState) (buffer : Nat → Nat) (k : Nat),
      rs.sequence = 0 →
      ¬(buffer 0 % 256 = 0 ∧ buffer 1 % 256 = 0) →
      ¬((rs.blockSize = 512 ∧ buffer 1 % 256 ≠ 0x22) ∨
        (rs.blockSize = 1024 ∧ buffer 1 % 256 ≠ 0x22) ∨
        (rs.blockSize = 4096 ∧ buffer 1 % 256 ≠ 0x82)) →
      (checkBlockHeader bigE rs buffer k).2 = read32 bigE buffer 8) := by
  refine ⟨rfl, rfl, rfl, rfl, rfl, ?_, ?_⟩
  · unfold checkRedoLog readerHandleCheck checkRedoLogRequest
    by_cases h : openRet = .OK <;> simp [h]
  · intro bigE rs buffer k hseq hne hmagic
    unfold checkBlockHeader
    simp only [hne, if_false, hmagic, hseq]
    simp only [true_or, if_true]
    by_cases h1 : read32 bigE buffer 4 ≠ k
    · simp [h1]
    · simp only [h1, if_false]
      split <;> rfl

theorem C10_witness :
    ((checkRedoLog false .OK (CheckSt.mk .SLEEPING .ERROR_READ 7 (some 1)
        (some 2))).1 = true ↔
      ((checkRedoLog false .OK (CheckSt.mk .SLEEPING .ERROR_READ 7 (some 1)
          (some 2))).2.status = .SLEEPING ∧
        (checkRedoLog false .OK (CheckSt.mk .SLEEPING .ERROR_READ 7 (some 1)
          (some 2))).2.ret = .OK)) :=
  (C10_theorem .OK (CheckSt.mk .SLEEPING .ERROR_READ 7 (some 1)
    (some 2))).2.2.2.2.2.1

/-- C8: on a metadata state whose incarnation list is non-empty, whose
resetlogs id matches no incarnation (so the current incarnation cannot be
located, and the persistent pointer is still null), and where some
incarnation branches exactly at metadata.nextScn, updateResetlogs
dereferences the null dbIncarnationCurrent inside the detection loop instead
of failing fatally with the resetlogs-not-found error the claim (and spec)
require. -/
theorem C8_theorem :
    updateResetlogs (MetaState.mk [DbIncarnation.mk 2 7 (some 100) 1] none
      5 9 3 (some 100)) = .nullDeref ∧
    URResult.nullDeref ≠ .fatalResetlogsNotFound := by
  decide

/-- C2 counterexample: the UPDATE branch of the reader thread itself resets
bufferStart from 3072 back to 2 * blockSize = 1024, so bufferStart is not
monotone and is not changed only by the consumer. -/
theorem C2_counterexample :
    RingStep .updateReset (RingSt.mk 3072 3072 3072 4096 512)
      (RingSt.mk 1024 1024 1024 4096 512) ∧
    (1024 : Nat) < 3072 ∧ RingEvent.isConsumer .updateReset = false :=
  ⟨RingStep.updateReset (RingSt.mk 3072 3072 3072 4096 512) (by decide),
    by decide, by decide⟩

/-- C2 (amended): every cursor step preserves
bufferStart ≤ bufferEnd ≤ bufferScan ≤ fileSize (given that the consumer
confirms offsets inside the published window); bufferStart is monotone
non-decreasing on every step except the UPDATE re-read reset; and any step
that changes bufferStart is a consumer step or that UPDATE reset. -/
theorem C2_theorem (e : RingEvent) (s s2 : RingSt) (h : RingStep e s s2) :
    (RingInv s → RingInv s2) ∧
    (e ≠ .updateReset → s.bufferStart ≤ s2.bufferStart) ∧
    (s2.bufferStart ≠ s.bufferStart →
      e.isConsumer = true ∨ e = .updateReset) := by
  cases h with
  | confirm o s hlo hhi =>
    refine ⟨fun hi => ?_, fun _ => hlo, fun _ => Or.inl rfl⟩
    obtain ⟨h1, h2, h3⟩ := hi
    exact ⟨hhi, h2, h3⟩
  | checkFin o s hhi =>
    refine ⟨fun hi => ?_, fun _ => le_max_left _ _, fun _ => Or.inl rfl⟩
    obtain ⟨h1, h2, h3⟩ := hi
    exact ⟨max_le h1 hhi, h2, h3⟩
  | read1Publish g s hscan hsize =>
    refine ⟨fun hi => ?_, fun _ => le_refl _, fun hne => absurd rfl hne⟩
    obtain ⟨h1, h2, h3⟩ := hi
    exact ⟨by simp; omega, by simp, by simp; omega⟩
  | read1Scan g s hsize =>
    refine ⟨fun hi => ?_, fun _ => le_refl _, fun hne => absurd rfl hne⟩
    obtain ⟨h1, h2, h3⟩ := hi
    exact ⟨h1, by simp; omega, by simp; omega⟩
  | read2Publish n s hheld =>
    refine ⟨fun hi => ?_, fun _ => le_refl _, fun hne => absurd rfl hne⟩
    obtain ⟨h1, h2, h3⟩ := hi
    exact ⟨by simp; omega, by simp; omega, h3⟩
  | updateReset s hfile =>
    refine ⟨fun hi => ?_, fun hne => absurd rfl hne, fun _ => Or.inr rfl⟩
    exact ⟨le_refl _, le_refl _, by simp; omega⟩
  | readEnter s =>
    refine ⟨fun hi => ?_, fun _ => le_refl _, fun hne => absurd rfl hne⟩
    obtain ⟨h1, h2, h3⟩ := hi
    exact ⟨h1, by simp, by simp; omega⟩

theorem C2_witness :
    RingInv (RingSt.mk 2048 2048 2048 4096 512) :=
  (C2_theorem (.confirm 2048) (RingSt.mk 1024 2048 2048 4096 512)
    (RingSt.mk 2048 2048 2048 4096 512)
    (RingStep.confirm 2048 (RingSt.mk 1024 2048 2048 4096 512) (by decide)
      (by decide))).1 ⟨by decide, by decide, by decide⟩

/-- C3 counterexample: the resetlogs detection in updateResetlogs assigns
metadata.sequence from 5 down to 0, a decrease performed by a step that is
not a FINISHED completion. -/
theorem C3_counterexample :
    SeqStep .resetlogsDetected 5 0 ∧ (0 : Nat) < 5 ∧
    SeqEvent.isFinished .resetlogsDetected = false :=
  ⟨SeqStep.resetlogsDetected 5, by decide, by decide⟩

/-- C3 (amended): metadata.sequence is bumped by exactly one (modulo 2^32)
precisely by the FINISHED completions; it is reset to zero by the resetlogs
detection; the queue-head adoption only fires when the sequence is zero and
so never decreases it; and apart from the resetlogs reset and the startup
positioning no step decreases the sequence. -/
theorem C3_theorem (ev : SeqEvent) (s s2 : Nat) (h : SeqStep ev s s2) :
    (ev.isFinished = true → s2 = (s + 1) % 2 ^ 32) ∧
    (ev.isFinished = true → s + 1 < 2 ^ 32 → s2 = s + 1) ∧
    (ev = .resetlogsDetected → s2 = 0) ∧
    (∀ q, ev = .adoptQueueHead q → s = 0 ∧ s2 = q) ∧
    (ev.isFinished = false → ev ≠ .resetlogsDetected →
      (∀ q, ev ≠ .positionReader q) → s ≤ s2) := by
  cases h with
  | finishedArch s =>
    refine ⟨fun _ => rfl, fun _ hlt => Nat.mod_eq_of_lt hlt, ?_, ?_, ?_⟩ <;>
      simp [SeqEvent.isFinished]
  | finishedOnline s =>
    refine ⟨fun _ => rfl, fun _ hlt => Nat.mod_eq_of_lt hlt, ?_, ?_, ?_⟩ <;>
      simp [SeqEvent.isFinished]
  | resetlogsDetected s =>
    refine ⟨?_, ?_, fun _ => rfl, ?_, ?_⟩ <;> simp [SeqEvent.isFinished]
  | adoptQueueHead q =>
    refine ⟨?_, ?_, ?_, ?_, ?_⟩ <;> simp [SeqEvent.isFinished]
  | positionReader q s =>
    refine ⟨?_, ?_, ?_, ?_, ?_⟩ <;> simp [SeqEvent.isFinished]

theorem C3_witness : (8 : Nat) = 7 + 1 :=
  (C3_theorem .finishedArch 7 ((7 + 1) % 2 ^ 32)
    (SeqStep.finishedArch 7)).2.1 rfl (by decide)

/-- C9 counterexample: on an archived log (group 0) a fill pass whose first
block fails the CRC check does not keep ERROR_CRC; the no-good-blocks
archived branch masks it into FINISHED (here nextScnHeader is known). -/
theorem C9_counterexample :
    read1Ret (Read1Input.mk 0 0 (some 5) false false false false
      [.ERROR_CRC] .OK) = some .FINISHED ∧
    some REDO_CODE.FINISHED ≠ some REDO_CODE.ERROR_CRC := by
  decide

theorem read1Decide_ne_crc (group : Int) (delay : Nat) (nsh : Scn)
    (g : Nat) (cr0 rl : REDO_CODE) (hg : group ≠ 0) (hd : 0 < delay)
    (hrl : rl ≠ .ERROR_CRC) :
    read1Decide group delay nsh g cr0 rl ≠ some .ERROR_CRC := by
  simp only [read1Decide]
  by_cases hcr : cr0 = .ERROR_CRC <;> split_ifs <;> simp_all

/-- C9 (amended): on an online log with verify delay on, a CRC failure in
the fill pass is demoted to EMPTY and read1 never terminates the file with
ERROR_CRC; on an online log with verify delay off the ERROR_CRC result is
kept; on an archived log a scan with no good blocks terminates with
FINISHED or STOPPED (by nextScnHeader) regardless of the block error. -/
theorem C9_theorem (i : Read1Input) (hreload : i.reloadRet ≠ .ERROR_CRC) :
    (i.group ≠ 0 → 0 < i.redoVerifyDelayUs →
      read1Ret i ≠ some .ERROR_CRC) ∧
    (i.group ≠ 0 → i.redoVerifyDelayUs = 0 → i.toReadZero = false →
      i.readFailed = false → i.copyWriteFailed = false →
      scanBlocks i.scanResults = (0, .ERROR_CRC) →
      read1Ret i = some .ERROR_CRC) ∧
    (i.group = 0 → i.toReadZero = false → i.readFailed = false →
      i.copyWriteFailed = false → (scanBlocks i.scanResults).1 = 0 →
      read1Ret i = some (if i.nextScnHeader ≠ none then .FINISHED
        else .STOPPED)) := by
  refine ⟨?_, ?_, ?_⟩
  · intro hg hd
    unfold read1Ret
    split_ifs with h1 h2 h3
    · simp
    · simp
    · simp
    · exact read1Decide_ne_crc _ _ _ _ _ _ hg hd hreload
  · intro hg hd h1 h2 h3 hscan
    unfold read1Ret
    simp [h1, h2, h3, hscan, hd, hg, read1Decide]
  · intro hg h1 h2 h3 hscan
    unfold read1Ret
    simp [h1, h2, h3, hg, read1Decide, hscan]

theorem C9_witness :
    read1Ret (Read1Input.mk 1 100 (some 5) false false false false
      [.ERROR_CRC] .OK) ≠ some .ERROR_CRC :=
  (C9_theorem (Read1Input.mk 1 100 (some 5) false false false false
    [.ERROR_CRC] .OK) (by decide)).1 (by decide) (by decide)

theorem read16_lt_65536 (bigE : Bool) (b : Nat → Nat) (off : Nat) :
    read16 bigE b off < 65536 := by
  unfold read16
  have h1 : b off % 256 < 256 := Nat.mod_lt _ (by norm_num)
  have h2 : b (off + 1) % 256 < 256 := Nat.mod_lt _ (by norm_num)
  split_ifs <;> omega

theorem chsum_accept_iff (bigE : Bool) (b : Nat → Nat) (size : Nat) :
    read16 bigE b 14 = calcChSum bigE b size ↔ blockFold16 b size = 0 := by
  simp only [calcChSum, blockFold16]
  have hlt : read16 bigE b 14 < 65536 := read16_lt_65536 bigE b 14
  generalize read16 bigE b 14 = st at *
  generalize (xorWords b (size / 8) ^^^ xorWords b (size / 8) >>> 32) ^^^
    (xorWords b (size / 8) ^^^ xorWords b (size / 8) >>> 32) >>> 16 = f
  rw [Nat.and_xor_distrib_right]
  have hmask : st &&& 65535 = st := by
    have h := Nat.and_pow_two_sub_one_eq_mod st 16
    norm_num at h
    rw [h]
    exact Nat.mod_eq_of_lt hlt
  rw [hmask]
  constructor
  · intro h
    have h2 : (f &&& 65535) ^^^ st = 0 ^^^ st := by
      rw [Nat.zero_xor]
      exact h.symm
    exact Nat.xor_left_inj.mp h2
  · intro h
    rw [h, Nat.zero_xor]

/-- C5 counterexample: a block with stored checksum 1 whose whole-block fold
is zero is accepted by checkBlockHeader (result OK), yet the quantity the
claim requires to be zero — the whole-block word XOR folded to 16 bits with
the stored checksum XOR-ed in, which is exactly calcChSum — equals 1. -/
theorem C5_counterexample :
    (checkBlockHeader false (RdState.mk 512 0 0 .READ false)
      (fun i => if i = 1 then 0x22 else if i = 14 then 1
        else if i = 17 then 0x22 else if i = 18 then 1 else 0) 0).1 =
      .OK ∧
    calcChSum false
      (fun i => if i = 1 then 0x22 else if i = 14 then 1
        else if i = 17 then 0x22 else if i = 18 then 1 else 0) 512 ≠ 0 := by
  decide

/-- C5 (amended): with checksum checking enabled, checkBlockHeader accepts a
block exactly when XOR-ing the whole block (stored checksum included) as
8-byte words and folding the result to 32 and then 16 bits yields zero;
corollarily the code acceptance test compares the stored checksum with
calcChSum, which XORs the stored checksum into that fold. The block is
assumed past the earlier checks: not empty, magic consistent, sequence check
passing, and block number matching. -/
theorem C5_theorem (bigE : Bool) (b : Nat → Nat) (st : RdState) (k : Nat)
    (hsum : st.disableBlockSum = false)
    (hne : ¬(b 0 % 256 = 0 ∧ b 1 % 256 = 0))
    (hmagic : ¬((st.blockSize = 512 ∧ b 1 % 256 ≠ 0x22) ∨
      (st.blockSize = 1024 ∧ b 1 % 256 ≠ 0x22) ∨
      (st.blockSize = 4096 ∧ b 1 % 256 ≠ 0x82)))
    (hseq : st.sequence = 0 ∨ st.status = .UPDATE ∨
      st.sequence = read32 bigE b 8)
    (hbn : read32 bigE b 4 = k) :
    (read16 bigE b 14 = calcChSum bigE b st.blockSize ↔
      blockFold16 b st.blockSize = 0) ∧
    ((checkBlockHeader bigE st b k).1 = .OK ↔
      blockFold16 b st.blockSize = 0) ∧
    ((checkBlockHeader bigE st b k).1 = .ERROR_CRC ↔
      blockFold16 b st.blockSize ≠ 0) := by
  have hiff := chsum_accept_iff bigE b st.blockSize
  refine ⟨hiff, ?_⟩
  have hred : (checkBlockHeader bigE st b k).1 =
      if read16 bigE b 14 ≠ calcChSum bigE b st.blockSize then
        REDO_CODE.ERROR_CRC
      else .OK := by
    unfold checkBlockHeader
    simp only [hne, if_false, hmagic]
    have htail : ∀ seqOut : Nat,
        (if read32 bigE b 4 ≠ k then (REDO_CODE.ERROR_BLOCK, seqOut)
         else if ¬st.disableBlockSum ∧
             read16 bigE b 14 ≠ calcChSum bigE b st.blockSize then
           (REDO_CODE.ERROR_CRC, seqOut)
         else (REDO_CODE.OK, seqOut)).1 =
        if read16 bigE b 14 ≠ calcChSum bigE b st.blockSize then
          REDO_CODE.ERROR_CRC
        else .OK := by
      intro seqOut
      simp only [hbn, hsum]
      split_ifs <;> simp_all
    rcases hseq with h0 | hupd | heq
    · simp only [h0, true_or, if_true]
      exact htail _
    · simp only [hupd, or_true, if_true]
      exact htail _
    · by_cases hadopt : st.sequence = 0 ∨ st.status = .UPDATE
      · simp only [hadopt, if_true]
        exact htail _
      · simp only [hadopt, if_false]
        by_cases hg : st.group = 0
        · simp only [hg, if_true, heq, ne_eq, not_true_eq_false, if_false]
          exact htail _
        · simp only [hg, if_false, heq, lt_irrefl, if_false]
          exact htail _
  rw [hred]
  by_cases hcr : read16 bigE b 14 = calcChSum bigE b st.blockSize
  · have hf := hiff.mp hcr
    simp [hcr, hf]
  · have hf : ¬blockFold16 b st.blockSize = 0 := fun h => hcr (hiff.mpr h)
    simp [hcr, hf]

theorem C5_witness :
    (checkBlockHeader false (RdState.mk 512 0 0 .READ false)
      (fun i => if i = 1 then 0x22 else if i = 14 then 1
        else if i = 17 then 0x22 else if i = 19 then 1 else 0) 0).1 =
      .ERROR_CRC := by
  have h := (C5_theorem false
    (fun i => if i = 1 then 0x22 else if i = 14 then 1
      else if i = 17 then 0x22 else if i = 19 then 1 else 0)
    (RdState.mk 512 0 0 .READ false) 0 rfl (by decide) (by decide)
    (Or.inl rfl) (by decide)).2.2
  exact h.mpr (by decide)

/-- C1 counterexample: a block whose magic byte (0x82) is inconsistent with
the 512-byte block size, met by an archived reader with a known sequence (3)
differing from the header sequence field (0), yields ERROR_BAD_DATA — not
the ERROR_SEQUENCE the claim requires for every differing-sequence block. -/
theorem C1_counterexample :
    (checkBlockHeader false (RdState.mk 512 0 3 .READ false)
      (fun i => if i = 1 then 0x82 else 0) 7).1 = .ERROR_BAD_DATA ∧
    ¬((fun i : Nat => if i = 1 then (0x82 : Nat) else 0) 0 % 256 = 0 ∧
      (fun i : Nat => if i = 1 then (0x82 : Nat) else 0) 1 % 256 = 0) ∧
    (RdState.mk 512 0 3 .READ false).sequence ≠ 0 ∧
    (RdState.mk 512 0 3 .READ false).status ≠ .UPDATE ∧
    (RdState.mk 512 0 3 .READ false).group = 0 ∧
    read32 false (fun i => if i = 1 then 0x82 else 0) 8 ≠
      (RdState.mk 512 0 3 .READ false).sequence ∧
    REDO_CODE.ERROR_BAD_DATA ≠ .ERROR_SEQUENCE := by
  decide

/-- C1 (amended): checkBlockHeader behaves as the claim describes once the
magic-byte check is accounted for: an all-zero start yields EMPTY; a magic
byte inconsistent with the block size yields ERROR_BAD_DATA before any
sequence comparison; past that, with the sequence known and the reader not
in UPDATE, an archived reader rejects a differing header sequence with
ERROR_SEQUENCE while an online reader maps a smaller header sequence to
EMPTY and a larger one to OVERWRITTEN; when the sequence check passes (or
the sequence is adopted), a wrong block-number field yields ERROR_BLOCK, a
checksum mismatch with checks enabled yields ERROR_CRC, and otherwise the
result is OK. -/
theorem C1_theorem (bigE : Bool) (st : RdState) (b : Nat → Nat) (k : Nat) :
    (b 0 % 256 = 0 ∧ b 1 % 256 = 0 →
      (checkBlockHeader bigE st b k).1 = .EMPTY) ∧
    (¬(b 0 % 256 = 0 ∧ b 1 % 256 = 0) →
      ((st.blockSize = 512 ∧ b 1 % 256 ≠ 0x22) ∨
        (st.blockSize = 1024 ∧ b 1 % 256 ≠ 0x22) ∨
        (st.blockSize = 4096 ∧ b 1 % 256 ≠ 0x82)) →
      (checkBlockHeader bigE st b k).1 = .ERROR_BAD_DATA) ∧
    (¬(b 0 % 256 = 0 ∧ b 1 % 256 = 0) →
      ¬((st.blockSize = 512 ∧ b 1 % 256 ≠ 0x22) ∨
        (st.blockSize = 1024 ∧ b 1 % 256 ≠ 0x22) ∨
        (st.blockSize = 4096 ∧ b 1 % 256 ≠ 0x82)) →
      st.sequence ≠ 0 → st.status ≠ .UPDATE → st.group = 0 →
      st.sequence ≠ read32 bigE b 8 →
      (checkBlockHeader bigE st b k).1 = .ERROR_SEQUENCE) ∧
    (¬(b 0 % 256 = 0 ∧ b 1 % 256 = 0) →
      ¬((st.blockSize = 512 ∧ b 1 % 256 ≠ 0x22) ∨
        (st.blockSize = 1024 ∧ b 1 % 256 ≠ 0x22) ∨
        (st.blockSize = 4096 ∧ b 1 % 256 ≠ 0x82)) →
      st.sequence ≠ 0 → st.status ≠ .UPDATE → st.group ≠ 0 →
      read32 bigE b 8 < st.sequence →
      (checkBlockHeader bigE st b k).1 = .EMPTY) ∧
    (¬(b 0 % 256 = 0 ∧ b 1 % 256 = 0) →
      ¬((st.blockSize = 512 ∧ b 1 % 256 ≠ 0x22) ∨
        (st.blockSize = 1024 ∧ b 1 % 256 ≠ 0x22) ∨
        (st.blockSize = 4096 ∧ b 1 % 256 ≠ 0x82)) →
      st.sequence ≠ 0 → st.status ≠ .UPDATE → st.group ≠ 0 →
      st.sequence < read32 bigE b 8 →
      (checkBlockHeader bigE st b k).1 = .OVERWRITTEN) ∧
    (¬(b 0 % 256 = 0 ∧ b 1 % 256 = 0) →
      ¬((st.blockSize = 512 ∧ b 1 % 256 ≠ 0x22) ∨
        (st.blockSize = 1024 ∧ b 1 % 256 ≠ 0x22) ∨
        (st.blockSize = 4096 ∧ b 1 % 256 ≠ 0x82)) →
      (st.sequence = 0 ∨ st.status = .UPDATE ∨
        st.sequence = read32 bigE b 8) →
      read32 bigE b 4 ≠ k →
      (checkBlockHeader bigE st b k).1 = .ERROR_BLOCK) ∧
    (¬(b 0 % 256 = 0 ∧ b 1 % 256 = 0) →
      ¬((st.blockSize = 512 ∧ b 1 % 256 ≠ 0x22) ∨
        (st.blockSize = 1024 ∧ b 1 % 256 ≠ 0x22) ∨
        (st.blockSize = 4096 ∧ b 1 % 256 ≠ 0x82)) →
      (st.sequence = 0 ∨ st.status = .UPDATE ∨
        st.sequence = read32 bigE b 8) →
      read32 bigE b 4 = k → st.disableBlockSum = false →
      read16 bigE b 14 ≠ calcChSum bigE b st.blockSize →
      (checkBlockHeader bigE st b k).1 = .ERROR_CRC) ∧
    (¬(b 0 % 256 = 0 ∧ b 1 % 256 = 0) →
      ¬((st.blockSize = 512 ∧ b 1 % 256 ≠ 0x22) ∨
        (st.blockSize = 1024 ∧ b 1 % 256 ≠ 0x22) ∨
        (st.blockSize = 4096 ∧ b 1 % 256 ≠ 0x82)) →
      (st.sequence = 0 ∨ st.status = .UPDATE ∨
        st.sequence = read32 bigE b 8) →
      read32 bigE b 4 = k →
      (st.disableBlockSum = true ∨
        read16 bigE b 14 = calcChSum bigE b st.blockSize) →
      (checkBlockHeader bigE st b k).1 = .OK) := by
  have hpass : ∀ (hne : ¬(b 0 % 256 = 0 ∧ b 1 % 256 = 0))
      (hmagic : ¬((st.blockSize = 512 ∧ b 1 % 256 ≠ 0x22) ∨
        (st.blockSize = 1024 ∧ b 1 % 256 ≠ 0x22) ∨
        (st.blockSize = 4096 ∧ b 1 % 256 ≠ 0x82)))
      (hp : st.sequence = 0 ∨ st.status = .UPDATE ∨
        st.sequence = read32 bigE b 8),
      (checkBlockHeader bigE st b k).1 =
        if read32 bigE b 4 ≠ k then REDO_CODE.ERROR_BLOCK
        else if ¬st.disableBlockSum ∧
            read16 bigE b 14 ≠ calcChSum bigE b st.blockSize then
          .ERROR_CRC
        else .OK := by
    intro hne hmagic hp
    unfold checkBlockHeader
    simp only [hne, if_false, hmagic]
    have htail : ∀ seqOut : Nat,
        (if read32 bigE b 4 ≠ k then (REDO_CODE.ERROR_BLOCK, seqOut)
         else if ¬st.disableBlockSum ∧
             read16 bigE b 14 ≠ calcChSum bigE b st.blockSize then
           (REDO_CODE.ERROR_CRC, seqOut)
         else (REDO_CODE.OK, seqOut)).1 =
        if read32 bigE b 4 ≠ k then REDO_CODE.ERROR_BLOCK
        else if ¬st.disableBlockSum ∧
            read16 bigE b 14 ≠ calcChSum bigE b st.blockSize then
          .ERROR_CRC
        else .OK := by
      intro seqOut
      split_ifs <;> rfl
    rcases hp with h0 | hupd | heq
    · simp only [h0, true_or, if_true]
      exact htail _
    · simp only [hupd, or_true, if_true]
      exact htail _
    · by_cases hadopt : st.sequence = 0 ∨ st.status = .UPDATE
      · simp only [hadopt, if_true]
        exact htail _
      · simp only [hadopt, if_false]
        by_cases hg : st.group = 0
        · simp only [hg, if_true, heq, ne_eq, not_true_eq_false, if_false]
          exact htail _
        · simp only [hg, if_false, heq, lt_irrefl, if_false]
          exact htail _
  refine ⟨?_, ?_, ?_, ?_, ?_, ?_, ?_, ?_⟩
  · intro he
    unfold checkBlockHeader
    simp [he]
  · intro hne hm
    unfold checkBlockHeader
    simp [hne, hm]
  · intro hne hm hs hu hg hsne
    have hadopt : ¬(st.sequence = 0 ∨ st.status = .UPDATE) := by
      simp [hs, hu]
    unfold checkBlockHeader
    simp only [hne, if_false, hm, hadopt, hg, if_true]
    have : st.sequence ≠ read32 bigE b 8 := hsne
    simp [this]
  · intro hne hm hs hu hg hlt
    have hadopt : ¬(st.sequence = 0 ∨ st.status = .UPDATE) := by
      simp [hs, hu]
    unfold checkBlockHeader
    simp only [hne, if_false, hm, hadopt, hg]
    simp [hg, hlt]
  · intro hne hm hs hu hg hlt
    have hadopt : ¬(st.sequence = 0 ∨ st.status = .UPDATE) := by
      simp [hs, hu]
    have hnlt : ¬read32 bigE b 8 < st.sequence := by omega
    unfold checkBlockHeader
    simp [hne, hm, hadopt, hg, hlt, hnlt]
  · intro hne hm hp hbn
    rw [hpass hne hm hp]
    simp [hbn]
  · intro hne hm hp hbn hsum hcr
    rw [hpass hne hm hp]
    simp [hbn, hsum, hcr]
  · intro hne hm hp hbn hok
    rw [hpass hne hm hp]
    rcases hok with hd | hc
    · simp [hbn, hd]
    · simp [hbn, hc]

theorem C1_witness :
    (checkBlockHeader false (RdState.mk 512 0 3 .READ false)
      (fun i => if i = 1 then 0x22 else if i = 9 then 1 else 0) 7).1 =
      .ERROR_SEQUENCE :=
  (C1_theorem false (RdState.mk 512 0 3 .READ false)
    (fun i => if i = 1 then 0x22 else if i = 9 then 1 else 0) 7).2.2.1
    (by decide) (by decide) (by decide) (by decide) rfl (by decide)

theorem takeNumber_stop (l : List Nat) (a : Nat)
    (h : headNonDigit l = true) : takeNumber l a = (0, a, l) := by
  cases l with
  | nil => rfl
  | cons c rest =>
    simp only [headNonDigit, Bool.not_eq_true'] at h
    simp [takeNumber, h]

theorem takeNumber_run (cs : List Nat) : ∀ (l : List Nat) (a : Nat),
    cs.all isDigC = true → headNonDigit l = true →
    takeNumber (cs ++ l) a = (cs.length, foldDec a cs, l) := by
  induction cs with
  | nil =>
    intro l a _ hl
    simpa [foldDec] using takeNumber_stop l a hl
  | cons c cs2 ih =>
    intro l a hcs hl
    simp only [List.all_cons, Bool.and_eq_true] at hcs
    simp only [List.cons_append, takeNumber, hcs.1, if_true, List.append_eq]
    rw [ih l ((a * 10 + (c - 48)) % 2 ^ 32) hcs.2 hl]
    simp [foldDec]

theorem takeHash_stop (l : List Nat) (h : headNonHash l = true) :
    takeHash l = (0, l) := by
  cases l with
  | nil => rfl
  | cons c rest =>
    simp only [headNonHash, Bool.not_eq_true'] at h
    simp [takeHash, h]

theorem takeHash_run (cs : List Nat) : ∀ (l : List Nat),
    cs.all isHashC = true → headNonHash l = true →
    takeHash (cs ++ l) = (cs.length, l) := by
  induction cs with
  | nil =>
    intro l _ hl
    simpa using takeHash_stop l hl
  | cons c cs2 ih =>
    intro l hcs hl
    simp only [List.all_cons, Bool.and_eq_true] at hcs
    simp only [List.cons_append, takeHash, hcs.1, if_true, List.append_eq]
    rw [ih l hcs.2 hl]
    simp

theorem le_foldDecNW (cs : List Nat) : ∀ a : Nat, a ≤ foldDecNW a cs := by
  induction cs with
  | nil => intro a; simp [foldDecNW]
  | cons c cs2 ih =>
    intro a
    have h := ih (a * 10 + (c - 48))
    simp only [foldDecNW, List.foldl_cons] at h ⊢
    omega

theorem foldDec_eq_foldDecNW (cs : List Nat) : ∀ a : Nat,
    foldDecNW a cs < 2 ^ 32 → foldDec a cs = foldDecNW a cs := by
  induction cs with
  | nil => intro a _; rfl
  | cons c cs2 ih =>
    intro a hlt
    have hstep : a * 10 + (c - 48) ≤ foldDecNW (a * 10 + (c - 48)) cs2 :=
      le_foldDecNW cs2 _
    have heq : foldDecNW a (c :: cs2) = foldDecNW (a * 10 + (c - 48)) cs2 :=
      rfl
    rw [heq] at hlt
    have hmod : (a * 10 + (c - 48)) % 2 ^ 32 = a * 10 + (c - 48) :=
      Nat.mod_eq_of_lt (by omega)
    simp only [foldDec, List.foldl_cons, hmod]
    exact ih _ hlt

theorem foldDecNW_toDigitsRev : ∀ (fuel n a : Nat), n ≤ fuel →
    foldDecNW a (toDigitsRev fuel n).reverse =
      a * 10 ^ (toDigitsRev fuel n).length + n := by
  intro fuel
  induction fuel with
  | zero =>
    intro n a hn
    interval_cases n
    simp [toDigitsRev, foldDecNW]
  | succ f ih =>
    intro n a hn
    cases n with
    | zero => simp [toDigitsRev, foldDecNW]
    | succ m =>
      have hdiv : (m + 1) / 10 ≤ f := by
        have := Nat.div_lt_self (Nat.succ_pos m) (by norm_num : (1:Nat) < 10)
        omega
      simp only [toDigitsRev, List.reverse_cons, List.length_cons]
      have happ : foldDecNW a ((toDigitsRev f ((m + 1) / 10)).reverse ++
          [(m + 1) % 10 + 48]) =
          foldDecNW (foldDecNW a (toDigitsRev f ((m + 1) / 10)).reverse)
            [(m + 1) % 10 + 48] := by
        simp [foldDecNW, List.foldl_append]
      rw [happ, ih ((m + 1) / 10) a hdiv, pow_succ]
      generalize (10 : Nat) ^ (toDigitsRev f ((m + 1) / 10)).length = P
      simp only [foldDecNW, List.foldl_cons, List.foldl_nil]
      have hd : (m + 1) % 10 + 48 - 48 = (m + 1) % 10 := by omega
      rw [hd]
      have hmul : a * (P * 10) = a * P * 10 := by ring
      rw [hmul]
      have hsplit := Nat.div_add_mod (m + 1) 10
      omega

theorem foldDecNW_decChars (n : Nat) : foldDecNW 0 (decChars n) = n := by
  by_cases h : n = 0
  · subst h
    simp [decChars, foldDecNW]
  · simp only [decChars, h, if_false]
    have := foldDecNW_toDigitsRev n n 0 (le_refl n)
    simpa using this

theorem foldDec_decChars (n : Nat) (h : n < 2 ^ 32) :
    foldDec 0 (decChars n) = n := by
  rw [foldDec_eq_foldDecNW]
  · exact foldDecNW_decChars n
  · rw [foldDecNW_decChars n]
    exact h

theorem toDigitsRev_all_digits : ∀ fuel n : Nat,
    (toDigitsRev fuel n).all isDigC = true := by
  intro fuel
  induction fuel with
  | zero => intro n; rfl
  | succ f ih =>
    intro n
    cases n with
    | zero => rfl
    | succ m =>
      simp only [toDigitsRev, List.all_cons, Bool.and_eq_true]
      refine ⟨?_, ih ((m + 1) / 10)⟩
      have : (m + 1) % 10 < 10 := Nat.mod_lt _ (by norm_num)
      simp only [isDigC, decide_eq_true_eq]
      omega

theorem decChars_all_digits (n : Nat) : (decChars n).all isDigC = true := by
  by_cases h : n = 0
  · subst h; rfl
  · simp only [decChars, h, if_false, List.all_reverse]
    exact toDigitsRev_all_digits n n

theorem decChars_ne_nil (n : Nat) : decChars n ≠ [] := by
  by_cases h : n = 0
  · subst h; simp [decChars]
  · simp only [decChars, h, if_false]
    cases n with
    | zero => exact absurd rfl h
    | succ m =>
      simp [toDigitsRev]

theorem zeroFill_all_digits (w n : Nat) : (zeroFill w n).all isDigC = true := by
  simp only [zeroFill, List.all_append, Bool.and_eq_true]
  refine ⟨?_, decChars_all_digits n⟩
  simp only [List.all_eq_true]
  intro c hc
  have := List.eq_of_mem_replicate hc
  subst this
  rfl

theorem zeroFill_ne_nil (w n : Nat) : zeroFill w n ≠ [] := by
  simp only [zeroFill]
  intro h
  rcases List.append_eq_nil.mp h with ⟨_, h2⟩
  exact decChars_ne_nil n h2

theorem foldDec_zeros : ∀ k : Nat, foldDec 0 (List.replicate k 48) = 0 := by
  intro k
  induction k with
  | zero => rfl
  | succ m ih =>
    simp only [List.replicate_succ, foldDec, List.foldl_cons]
    simpa [foldDec] using ih

theorem foldDec_zeroFill (w n : Nat) (h : n < 2 ^ 32) :
    foldDec 0 (zeroFill w n) = n := by
  simp only [zeroFill, foldDec, List.foldl_append]
  have h1 := foldDec_zeros (w - (decChars n).length)
  simp only [foldDec] at h1
  rw [h1]
  have h2 := foldDec_decChars n h
  simpa [foldDec] using h2

theorem expand_headNonDigit (p : ArchParams) (rest t : List Nat)
    (hb : breaksNumber rest = true) (he : expandFormat p rest = some t) :
    headNonDigit t = true := by
  cases rest with
  | nil =>
    simp only [expandFormat, Option.some_inj] at he
    subst he
    rfl
  | cons c rest2 =>
    simp only [breaksNumber, Bool.and_eq_true, decide_eq_true_eq] at hb
    unfold expandFormat at he
    simp only [hb.1, if_false] at he
    rcases h2 : expandFormat p rest2 with _ | t2
    · rw [h2] at he
      cases he
    · rw [h2] at he
      simp only [Option.some_inj] at he
      subst he
      simp [headNonDigit, hb.2]

theorem expand_headNonHash (p : ArchParams) (rest t : List Nat)
    (hb : breaksHash rest = true) (he : expandFormat p rest = some t) :
    headNonHash t = true := by
  cases rest with
  | nil =>
    simp only [expandFormat, Option.some_inj] at he
    subst he
    rfl
  | cons c rest2 =>
    simp only [breaksHash, Bool.and_eq_true, decide_eq_true_eq] at hb
    unfold expandFormat at he
    simp only [hb.1, if_false] at he
    rcases h2 : expandFormat p rest2 with _ | t2
    · rw [h2] at he
      cases he
    · rw [h2] at he
      simp only [Option.some_inj] at he
      subst he
      simp [headNonHash, hb.2]

theorem walk_literal_step (f : Nat) (hf : f ≠ 37) (fmtR tl : List Nat)
    (a : Nat) : walk (f :: fmtR) (f :: tl) a = walk fmtR tl a := by
  unfold walk
  simp only [hf, if_false, if_true]
  rw [← walk.eq_def]

theorem walk_numeric_step (w : Nat) (hw : numericW w = true)
    (fmt2 cs t : List Nat) (a : Nat) (hcs : cs.all isDigC = true)
    (hne : cs ≠ []) (ht : headNonDigit t = true) :
    walk (37 :: w :: fmt2) (cs ++ t) a =
      walk fmt2 t (if seqW w = true then foldDec 0 cs else a) := by
  obtain ⟨c, cs2, rfl⟩ := List.exists_cons_of_ne_nil hne
  rw [List.cons_append]
  unfold walk
  simp only [if_true, hw]
  rw [show c :: (cs2 ++ t) = (c :: cs2) ++ t from rfl,
    takeNumber_run (c :: cs2) t 0 hcs ht]
  simp only [List.length_cons]
  split_ifs with h1 h2 h3 <;> (try simp_all) <;> (try rw [← walk.eq_def])

theorem walk_hash_step (fmt2 cs t : List Nat) (a : Nat)
    (hcs : cs.all isHashC = true) (hne : cs ≠ [])
    (ht : headNonHash t = true) :
    walk (37 :: 104 :: fmt2) (cs ++ t) a = walk fmt2 t a := by
  obtain ⟨c, cs2, rfl⟩ := List.exists_cons_of_ne_nil hne
  rw [List.cons_append]
  unfold walk
  simp only [if_true]
  rw [show c :: (cs2 ++ t) = (c :: cs2) ++ t from rfl,
    takeHash_run (c :: cs2) t hcs ht]
  have hnw : numericW 104 = false := by decide
  simp only [hnw, Bool.false_eq_true, if_false, List.length_cons,
    Nat.succ_ne_zero, if_true]
  rw [← walk.eq_def]

theorem walkExpandAux : ∀ (n : Nat) (fmt : List Nat), fmt.length ≤ n →
    ∀ (p : ArchParams) (file : List Nat) (a : Nat),
    sepFormat fmt = true → hashWF p.hash = true → p.seq < 2 ^ 32 →
    expandFormat p fmt = some file →
    walk fmt file a = if hasSeqWildcard fmt = true then p.seq else a := by
  intro n
  induction n with
  | zero =>
    intro fmt hlen p file a hsep hh hs hexp
    have hfmt : fmt = [] := List.eq_nil_of_length_eq_zero (Nat.le_zero.mp hlen)
    subst hfmt
    simp only [expandFormat, Option.some_inj] at hexp
    subst hexp
    simp [walk, hasSeqWildcard]
  | succ m ih =>
    intro fmt hlen p file a hsep hh hs hexp
    cases fmt with
    | nil =>
      simp only [expandFormat, Option.some_inj] at hexp
      subst hexp
      simp [walk, hasSeqWildcard]
    | cons c rest =>
      by_cases hc : c = 37
      · subst hc
        cases rest with
        | nil =>
          unfold sepFormat at hsep
          simp at hsep
        | cons w rest2 =>
          have hlen2 : rest2.length ≤ m := by
            simp only [List.length_cons] at hlen
            omega
          unfold sepFormat at hsep
          simp only [if_true, Bool.or_eq_true, Bool.and_eq_true,
            decide_eq_true_eq] at hsep
          unfold expandFormat at hexp
          simp only [if_true] at hexp
          rcases hch : wildcardChunk p w with _ | cs
          · rw [hch] at hexp
            simp at hexp
          rcases hrest : expandFormat p rest2 with _ | t
          · rw [hrest, hch] at hexp
            simp at hexp
          rw [hch, hrest] at hexp
          simp only [Option.some_inj] at hexp
          subst hexp
          have hseqrw : hasSeqWildcard (37 :: w :: rest2) =
              (seqW w || hasSeqWildcard rest2) := by
            unfold hasSeqWildcard
            simp only [if_true]
            rw [← hasSeqWildcard.eq_def]
          rcases hsep with ⟨⟨hnw, hbr⟩, hsr⟩ | ⟨⟨hw4, hbh⟩, hsr⟩
          · have hnd : headNonDigit t = true :=
              expand_headNonDigit p rest2 t hbr hrest
            have hcs_facts : cs.all isDigC = true ∧ cs ≠ [] ∧
                (seqW w = true → foldDec 0 cs = p.seq) := by
              have hnw2 := hnw
              simp only [numericW, decide_eq_true_eq] at hnw2
              rcases hnw2 with rfl | rfl | rfl | rfl | rfl | rfl | rfl <;>
                (simp only [wildcardChunk] at hch; norm_num at hch) <;>
                (try subst hch) <;>
                first
                | exact ⟨decChars_all_digits _, decChars_ne_nil _,
                    fun _ => foldDec_decChars _ hs⟩
                | exact ⟨zeroFill_all_digits _ _, zeroFill_ne_nil _ _,
                    fun _ => foldDec_zeroFill _ _ hs⟩
                | exact ⟨decChars_all_digits _, decChars_ne_nil _,
                    fun hsw => absurd hsw (by decide)⟩
                | exact ⟨zeroFill_all_digits _ _, zeroFill_ne_nil _ _,
                    fun hsw => absurd hsw (by decide)⟩
            obtain ⟨hdig, hne, hfold⟩ := hcs_facts
            rw [walk_numeric_step w hnw rest2 cs t a hdig hne hnd,
              ih rest2 hlen2 p t _ hsr hh hs hrest, hseqrw]
            by_cases hsw : seqW w = true
            · simp only [hsw, if_true, hfold hsw, Bool.true_or, if_true]
              by_cases hh2 : hasSeqWildcard rest2 = true <;> simp [hh2]
            · simp only [Bool.not_eq_true] at hsw
              simp [hsw]
          · subst hw4
            have hnd : headNonHash t = true :=
              expand_headNonHash p rest2 t hbh hrest
            have hcs_eq : cs = p.hash := by
              simp only [wildcardChunk] at hch
              norm_num at hch
              exact hch.symm
            subst hcs_eq
            have hhne : p.hash ≠ [] := by
              intro hnil
              rw [hnil] at hh
              simp [hashWF] at hh
            have hall : p.hash.all isHashC = true := by
              simp only [hashWF, Bool.and_eq_true] at hh
              exact hh.2
            rw [walk_hash_step rest2 p.hash t a hall hhne hnd,
              ih rest2 hlen2 p t a hsr hh hs hrest, hseqrw]
            have hs104 : seqW 104 = false := by decide
            simp [hs104]
      · have hlen2 : rest.length ≤ m := by
          simp only [List.length_cons] at hlen
          omega
        unfold sepFormat at hsep
        simp only [hc, if_false] at hsep
        unfold expandFormat at hexp
        simp only [hc, if_false] at hexp
        rcases hrest : expandFormat p rest with _ | t
        · rw [hrest] at hexp
          simp at hexp
        · rw [hrest] at hexp
          simp only [Option.some_inj] at hexp
          subst hexp
          rw [walk_literal_step c hc rest t a,
            ih rest hlen2 p t a hsep hh hs hrest]
          have hseqrw : hasSeqWildcard (c :: rest) = hasSeqWildcard rest := by
            unfold hasSeqWildcard
            simp only [hc, if_false]
            rw [← hasSeqWildcard.eq_def]
          rw [hseqrw]

theorem walkZeroAux : ∀ (n : Nat) (fmt : List Nat), fmt.length ≤ n →
    ∀ (file : List Nat) (a : Nat), formatMatches fmt file = false →
    walk fmt file a = 0 := by
  intro n
  induction n with
  | zero =>
    intro fmt hlen file a hm
    have hfmt : fmt = [] := List.eq_nil_of_length_eq_zero (Nat.le_zero.mp hlen)
    subst hfmt
    cases file with
    | nil => simp [formatMatches] at hm
    | cons c fr => simp [walk]
  | succ m ih =>
    intro fmt hlen file a hm
    cases fmt with
    | nil =>
      cases file with
      | nil => simp [formatMatches] at hm
      | cons c fr => simp [walk]
    | cons f rest =>
      cases file with
      | nil => simp [walk]
      | cons cf fr =>
        by_cases hf : f = 37
        · subst hf
          cases rest with
          | nil =>
            unfold walk
            simp
          | cons w rest2 =>
            have hlen2 : rest2.length ≤ m := by
              simp only [List.length_cons] at hlen
              omega
            unfold walk
            unfold formatMatches at hm
            simp only [if_true] at hm ⊢
            by_cases hnw : numericW w = true
            · simp only [hnw, if_true] at hm ⊢
              by_cases hz : (takeNumber (cf :: fr) 0).1 = 0
              · simp [hz]
              · simp only [hz, if_false] at hm ⊢
                exact ih rest2 hlen2 _ _ hm
            · simp only [Bool.not_eq_true] at hnw
              simp only [hnw, Bool.false_eq_true, if_false] at hm ⊢
              by_cases hw4 : w = 104
              · simp only [hw4, if_true] at hm ⊢
                by_cases hz : (takeHash (cf :: fr)).1 = 0
                · simp [hz]
                · simp only [hz, if_false] at hm ⊢
                  exact ih rest2 hlen2 _ _ hm
              · simp [hw4]
        · have hlen2 : rest.length ≤ m := by
            simp only [List.length_cons] at hlen
            omega
          unfold walk
          unfold formatMatches at hm
          simp only [hf, if_false] at hm ⊢
          by_cases hcf : cf = f
          · simp only [hcf, if_true] at hm ⊢
            exact ih rest hlen2 fr a hm
          · simp [hcf]

/-- C7 counterexample: for the format consisting of the two adjacent
wildcards %s%t, expanding with sequence 1 and thread 23 yields the filename
123, on which the extractor consumes all three digits for %s, finds no
digits left for %t and returns Seq::zero() = 0 instead of the sequence 1, so
the extractor is not a left inverse of template expansion for every
format. -/
theorem C7_counterexample :
    expandFormat (ArchParams.mk 1 0 23 0 0 0 0 [97]) [37, 115, 37, 116] =
      some [49, 50, 51] ∧
    (ArchParams.mk 1 0 23 0 0 0 0 [97]).seq = 1 ∧
    getSequenceFromFileName [37, 115, 37, 116] [49, 50, 51] = 0 ∧
    (0 : Nat) ≠ 1 := by
  decide

/-- C7 (amended): for every well-separated format (each wildcard known and
followed by a literal that cannot extend the run it consumes, or the end of
the format) containing a sequence wildcard, with a well-formed hash value
and a 32-bit sequence, running getSequenceFromFileName on the expansion of
the format returns exactly the substituted sequence; and on every filename
that does not match the template the extractor returns Seq::zero() = 0. -/
theorem C7_theorem :
    (∀ (fmt : List Nat) (p : ArchParams) (file : List Nat),
      sepFormat fmt = true → hasSeqWildcard fmt = true →
      hashWF p.hash = true → p.seq < 2 ^ 32 →
      expandFormat p fmt = some file →
      getSequenceFromFileName fmt file = p.seq) ∧
    (∀ (fmt file : List Nat), formatMatches fmt file = false →
      getSequenceFromFileName fmt file = 0) := by
  constructor
  · intro fmt p file hsep hseq hh hs hexp
    have h := walkExpandAux fmt.length fmt (le_refl _) p file 0 hsep hh hs
      hexp
    simpa [getSequenceFromFileName, hseq] using h
  · intro fmt file hm
    exact walkZeroAux fmt.length fmt (le_refl _) file 0 hm

theorem C7_witness :
    getSequenceFromFileName [111, 95, 37, 115, 95, 37, 104, 46, 97, 114, 99]
      [111, 95, 49, 50, 51, 95, 97, 98, 49, 46, 97, 114, 99] = 123 :=
  C7_theorem.1 [111, 95, 37, 115, 95, 37, 104, 46, 97, 114, 99]
    (ArchParams.mk 123 0 1 0 0 0 0 [97, 98, 49])
    [111, 95, 49, 50, 51, 95, 97, 98, 49, 46, 97, 114, 99]
    (by decide) (by decide) (by decide) (by decide) (by decide)

end OLR
